import Mathlib

/-!
Verification development for the AIP Uruguay compiler script
(`src/aip_compiler.py`).

The Python source is shallowly embedded.  Network and filesystem effects
are modelled by explicit oracles: the outcome of the n-th HTTP attempt
against a URL is a value of `HttpOutcome` (respectively `FetchOutcome`
for full GET downloads), delivered by a function `Nat → HttpOutcome`.
`while` loops become fuel-indexed recursions that return `none` when the
fuel is exhausted (the Python loops are unbounded, so the fuel is a
harness artifact; every theorem quantifies over or instantiates enough
fuel).  Observable side effects that the claims talk about — backoff
sleeps between retry attempts, file writes and removals, backward month
steps — are returned as explicit traces alongside the function results,
mirroring the log lines the script emits at those points.
-/

/-- `MIN_FILE_SIZE` constant from the source (line 20): minimum stored
file size in bytes. -/
def MIN_FILE_SIZE : Nat := 1024

/-- `MAX_WORKERS` constant from the source (line 21). -/
def MAX_WORKERS : Nat := 10

/-- `DATE_LIMIT_YEARS` constant from the source (line 22): horizon for the
backward month walk. -/
def DATE_LIMIT_YEARS : Int := 2

/-- `MAX_CONSECUTIVE_404S` constant from the source (line 23): miss
tolerance for iterable-group enumeration. -/
def MAX_CONSECUTIVE_404S : Nat := 5

/-- Outcome of a single HTTP HEAD attempt inside `url_exists`
(source lines 47-58): either a response with a numeric status code, or a
`requests.exceptions.RequestException` (timeout, connection error, ...). -/
inductive HttpOutcome where
  | status (code : Nat)
  | netError
  deriving DecidableEq, Repr

/-- Shallow embedding of `url_exists` (source lines 45-63), instrumented
with a retry trace.  `att n` is the outcome of attempt `n`; `R` is
`max_retries`; the `Nat` argument pair is (remaining fuel, attempt index),
with fuel initialised to `R` so that the recursion mirrors
`for attempt in range(max_retries)`.

Result: the returned boolean (line 51 `True` / line 54 `False` / line 61
and line 63 `True`), paired with the list of retries the loop performed:
an entry `(n, some w)` means the loop continued from attempt `n` to
attempt `n+1` after sleeping `w = 2^n` seconds (line 62), and `(n, none)`
means it continued with no sleep at all (the unexpected-status path,
lines 55-56, which falls through to the next loop iteration directly). -/
def urlExistsGo (att : Nat → HttpOutcome) (R : Nat) : Nat → Nat → Bool × List (Nat × Option Nat)
  | 0, _ => (true, [])
  | fuel+1, n =>
    match att n with
    | .status c =>
      if c = 200 then (true, [])
      else if c = 404 then (false, [])
      else if n + 1 = R then (true, [])
      else
        let r := urlExistsGo att R fuel (n+1)
        (r.1, (n, none) :: r.2)
    | .netError =>
      if n + 1 = R then (true, [])
      else
        let r := urlExistsGo att R fuel (n+1)
        (r.1, (n, some (2 ^ n)) :: r.2)

/-- One full call of `url_exists` with its retry trace. -/
def urlExistsRun (att : Nat → HttpOutcome) (R : Nat) : Bool × List (Nat × Option Nat) :=
  urlExistsGo att R R 0

/-- `url_exists(url, max_retries)` from the source: just the boolean the
Python function returns. -/
def url_exists (att : Nat → HttpOutcome) (R : Nat) : Bool :=
  (urlExistsRun att R).1

/-- The spec's tri-state `ProbeResult` (`Exists` / `ConfirmedAbsent` /
`Indeterminate`).  `found` models `Exists`. -/
inductive ProbeResult where
  | found
  | confirmedAbsent
  | indeterminate
  deriving DecidableEq, Repr

/-- Classification of one `url_exists` call by which exit produced its
result: the line-51 exit (definitive 200) is `found`, the line-54 exit
(definitive 404) is `confirmedAbsent`, and the line-61 / line-63 exits
(retries exhausted without a definitive 200/404) are `indeterminate`.
Same recursion structure as `urlExistsGo`. -/
def classifyGo (att : Nat → HttpOutcome) (R : Nat) : Nat → Nat → ProbeResult
  | 0, _ => .indeterminate
  | fuel+1, n =>
    match att n with
    | .status c =>
      if c = 200 then .found
      else if c = 404 then .confirmedAbsent
      else if n + 1 = R then .indeterminate
      else classifyGo att R fuel (n+1)
    | .netError =>
      if n + 1 = R then .indeterminate
      else classifyGo att R fuel (n+1)

/-- Tri-state result of one `url_exists` call. -/
def classifyProbe (att : Nat → HttpOutcome) (R : Nat) : ProbeResult :=
  classifyGo att R R 0

/-- Outcome of one GET attempt inside `download_pdf` (source lines
105-109): a successful 2xx response whose body has `size` bytes, or a
`RequestException` / non-2xx status (which `raise_for_status` turns into
the same except branch). -/
inductive FetchOutcome where
  | ok (size : Nat)
  | err
  deriving DecidableEq, Repr

/-- Filesystem events `download_pdf` performs on its destination file:
writing a body of a given byte size (line 108-109) and removing the file
(line 114). -/
inductive FsEv where
  | write (size : Nat)
  | remove
  deriving DecidableEq, Repr

/-- Shallow embedding of `download_pdf` (source lines 103-126).  `fa n`
is the outcome of GET attempt `n`, `R` is `max_retries`.  Returns the
boolean result and the trace of filesystem events on the destination
file. -/
def downloadGo (fa : Nat → FetchOutcome) (R : Nat) : Nat → Nat → Bool × List FsEv
  | 0, _ => (false, [])
  | fuel+1, n =>
    match fa n with
    | .ok size =>
      if size < MIN_FILE_SIZE then (false, [.write size, .remove])
      else (true, [.write size])
    | .err =>
      if n + 1 = R then (false, [])
      else downloadGo fa R fuel (n+1)

/-- One full call of `download_pdf`. -/
def download_pdf (fa : Nat → FetchOutcome) (R : Nat) : Bool × List FsEv :=
  downloadGo fa R R 0

/-- Final state of the destination file after a trace of filesystem
events: `some s` if a file of `s` bytes remains stored, `none` if no
file remains. -/
def storedSize (evs : List FsEv) : Option Nat :=
  evs.foldl (fun _ e => match e with | .write s => some s | .remove => none) none

/-- Loop state of `download_iterable_pdfs` (source lines 129-150):
`iter` is `iter_num`, `misses` is `consecutive_404s`, `tasks` is the
submission-ordered list of ordinals whose URL was confirmed to exist and
whose download was submitted to the executor. -/
structure EnumState where
  iter : Nat
  misses : Nat
  tasks : List Nat
  deriving DecidableEq, Repr

/-- One iteration of the enumeration loop body (source lines 137-149):
probe the current ordinal; an existing ordinal resets the miss counter
to zero and submits a download task, a missing one increments it. -/
def enumStep (probeB : Nat → Bool) (s : EnumState) : EnumState :=
  if probeB s.iter then ⟨s.iter + 1, 0, s.tasks ++ [s.iter]⟩
  else ⟨s.iter + 1, s.misses + 1, s.tasks⟩

/-- The `while consecutive_404s < MAX_CONSECUTIVE_404S` loop (source
line 136), fuel-indexed.  `probeB i` is the boolean `url_exists` result
for ordinal `i`.  Returns the loop-exit state, or `none` if the fuel ran
out before the tolerance was exhausted. -/
def enumGo (probeB : Nat → Bool) : Nat → EnumState → Option EnumState
  | 0, s => if MAX_CONSECUTIVE_404S ≤ s.misses then some s else none
  | fuel+1, s =>
    if MAX_CONSECUTIVE_404S ≤ s.misses then some s
    else enumGo probeB fuel (enumStep probeB s)

/-- `download_iterable_pdfs` at the ordinal level (source lines
129-160): run the enumeration loop from `iter_num = 0`,
`consecutive_404s = 0`, then collect results strictly in submission
order (lines 155-158), keeping the ordinals whose download succeeded
(`dl i` is the `download_pdf` result for ordinal `i`).  Returns the
final `iter_num` and the ordered list of successful ordinals. -/
def download_iterable_pdfs (probeB dl : Nat → Bool) (fuel : Nat) : Option (Nat × List Nat) :=
  (enumGo probeB fuel ⟨0, 0, []⟩).map fun s => (s.iter, s.tasks.filter dl)

/-- Completion log of the thread pool: `order` lists the task indices in
the order their futures complete (a permutation of the submitted
indices, determined by per-task latency); each future carries the
`download_pdf` result of its task.  `tasks` pairs each submitted task
with the success value its download will produce. -/
def mkCompletionLog (tasks : List (Nat × Bool)) (order : List Nat) : List (Nat × Bool) :=
  order.map fun i => (i, (tasks.getD i (0, false)).2)

/-- The collection loop of `download_iterable_pdfs` (source lines
155-158): iterate over the tasks in submission order; `future.result()`
retrieves task `k`'s value from the completion log by task identity
(blocking until it is available), never by completion position; keep the
filenames (here: ordinals) of successful downloads. -/
def gatherResults (tasks : List (Nat × Bool)) (log : List (Nat × Bool)) : List Nat :=
  (List.range tasks.length).filterMap fun k =>
    match List.lookup k log with
    | some true => some (tasks.getD k (0, false)).1
    | _ => none

/-- A proleptic-Gregorian calendar date, as `datetime` uses within its
supported range.  The year is an `Int`; month and day are 1-based. -/
structure Date where
  year : Int
  month : Nat
  day : Nat
  deriving DecidableEq, Repr

/-- Gregorian leap-year rule, as implemented by `datetime`. -/
def isLeap (y : Int) : Bool :=
  decide ((y % 4 = 0 ∧ ¬y % 100 = 0) ∨ y % 400 = 0)

/-- Number of days in a month, as implemented by `datetime`. -/
def daysInMonth (y : Int) (m : Nat) : Nat :=
  if m = 2 then (if isLeap y then 29 else 28)
  else if m = 4 ∨ m = 6 ∨ m = 9 ∨ m = 11 then 30
  else 31

/-- Validity of a date (the check the `datetime` constructor performs on
month and day). -/
def isValidDate (d : Date) : Bool :=
  decide (1 ≤ d.month ∧ d.month ≤ 12 ∧ 1 ≤ d.day ∧ d.day ≤ daysInMonth d.year d.month)

/-- `d.replace(year=y)`: revalidates the day against the new year and
raises `ValueError` (here: `none`) when the day does not exist in that
year's month — the Feb 29 case. -/
def replaceYear (d : Date) (y : Int) : Option Date :=
  if 1 ≤ d.month ∧ d.month ≤ 12 ∧ 1 ≤ d.day ∧ d.day ≤ daysInMonth y d.month then
    some ⟨y, d.month, d.day⟩
  else none

/-- Signed decimal numeral for an `Int`. -/
def intStr (y : Int) : String :=
  if y < 0 then "-" ++ Nat.repr y.natAbs else Nat.repr y.toNat

/-- Two-digit zero-padded numeral, as `strftime` renders `%m`. -/
def pad2 (n : Nat) : String :=
  if n < 10 then "0" ++ Nat.repr n else Nat.repr n

/-- Four-digit zero-padded year, as `strftime` renders `%Y` for the
years `datetime` supports. -/
def pad4 (y : Int) : String :=
  if y < 0 then intStr y
  else if y < 10 then "000" ++ intStr y
  else if y < 100 then "00" ++ intStr y
  else if y < 1000 then "0" ++ intStr y
  else intStr y

/-- `test_date.strftime("%Y-%m")` (source line 71). -/
def formatYM (d : Date) : String :=
  pad4 d.year ++ "-" ++ pad2 d.month

/-- `datetime` comparison `a <= b`: lexicographic on (year, month, day). -/
def dateLe (a b : Date) : Bool :=
  decide (a.year < b.year ∨
    (a.year = b.year ∧ (a.month < b.month ∨ (a.month = b.month ∧ a.day ≤ b.day))))

/-- Index of a date's calendar month on the unbounded month line:
consecutive calendar months have consecutive indices. -/
def monthIdx (d : Date) : Int :=
  12 * d.year + (d.month : Int)

/-- `test_date.replace(day=1)` (source line 96, first half). -/
def firstOfMonth (d : Date) : Date :=
  ⟨d.year, d.month, 1⟩

/-- Subtraction of `timedelta(days=1)` (source line 96, second half). -/
def subOneDay (d : Date) : Date :=
  if 1 < d.day then ⟨d.year, d.month, d.day - 1⟩
  else if 1 < d.month then ⟨d.year, d.month - 1, daysInMonth d.year (d.month - 1)⟩
  else ⟨d.year - 1, 12, 31⟩

/-- One backward step of the date walk:
`test_date = test_date.replace(day=1) - timedelta(days=1)` (line 96),
i.e. the last day of the previous calendar month. -/
def prevMonthEnd (d : Date) : Date :=
  subOneDay (firstOfMonth d)

/-- A group's URL template: an iterable template takes the month string
and an ordinal (the `{date}`/`{iter}` holes of `url_templates`, lines
26-31), a fixed template only the month string (`fixed_urls`, lines
34-37).  The constructor plays the role of the `is_iterable` flag, with
which it always agrees at the call sites. -/
inductive GroupTemplate where
  | iter (f : String → Nat → String)
  | fixedT (f : String → String)

/-- The inner probe loop of `find_valid_date_for_group` for iterable
groups (source lines 74-84), recursing structurally on the slack
`2 - consecutive_404s` of the loop guard `consecutive_404s < 2`: probe
ordinals from `iterN` upward; a hit returns from the enclosing function,
a miss increments both counters (the counter is never reset because a
hit returns immediately). -/
def probeIterLoop (p : Nat → Bool) : Nat → Nat → Nat → Bool
  | 0, _, _ => false
  | slack+1, iterN, misses =>
    if p iterN then true else probeIterLoop p slack (iterN + 1) (misses + 1)

/-- Entry into the inner probe loop at a given counter state (the
source enters it with `iter_num = 0`, `consecutive_404s = 0`). -/
def probeIterGo (p : Nat → Bool) (iterN misses : Nat) : Bool :=
  probeIterLoop p (2 - misses) iterN misses

/-- Whether `find_valid_date_for_group` confirms the group for one month
string: the iterable branch runs the inner probe loop (lines 73-84), the
fixed branch probes the single ordinal-free URL (lines 87-92). -/
def groupMonthFound (ux : String → Bool) (tmpl : GroupTemplate) (ds : String) : Bool :=
  match tmpl with
  | .iter f => probeIterGo (fun i => ux (f ds i)) 0 0
  | .fixedT f => ux (f ds)

/-- The `while test_date >= limit_date` walk of
`find_valid_date_for_group` (source lines 70-96), fuel-indexed, with the
number of backward month steps taken (line 96, observable in the
"checking previous month" log lines) returned alongside the result.
`ux url` is the boolean `url_exists` result for `url`. -/
def findGo (ux : String → Bool) (tmpl : GroupTemplate) (limit : Date) : Nat → Date → Nat → Option String × Nat
  | 0, _, steps => (none, steps)
  | fuel+1, d, steps =>
    if dateLe limit d then
      if groupMonthFound ux tmpl (formatYM d) then (some (formatYM d), steps)
      else findGo ux tmpl limit fuel (prevMonthEnd d) (steps + 1)
    else (none, steps)

/-- `find_valid_date_for_group` (source lines 66-100).  The outer
`none` models the `ValueError` that
`test_date.replace(year=test_date.year - DATE_LIMIT_YEARS)` (line 68)
raises when the day does not exist in the clamped year, before any
probing; otherwise the result is the found month string (or `none`
after the horizon) with the backward step count. -/
def find_valid_date_for_group (ux : String → Bool) (tmpl : GroupTemplate) (start : Date) (fuel : Nat) : Option (Option String × Nat) :=
  match replaceYear start (start.year - DATE_LIMIT_YEARS) with
  | none => none
  | some limit => some (findGo ux tmpl limit fuel start 0)

/-- `output_dir` from the source (line 18). -/
def output_dir : String := "aip_uruguay_pdfs"

/-- Common stem of every publisher URL. -/
def aipBase : String := "https://www.dinacia.gub.uy/sites/default/files/aip/"

/-- `url_templates["General"]` (line 27) as a function of its holes. -/
def genUrl (date : String) (i : Nat) : String :=
  aipBase ++ date ++ "/Gen" ++ Nat.repr i ++ ".pdf"

/-- `url_templates["EnRoute"]` (line 28). -/
def enrUrl (date : String) (i : Nat) : String :=
  aipBase ++ date ++ "/Enr" ++ Nat.repr i ++ ".pdf"

/-- `url_templates["Aerodromes"]` (line 29). -/
def adUrl (date : String) (i : Nat) : String :=
  aipBase ++ date ++ "/Ad" ++ Nat.repr i ++ ".pdf"

/-- `url_templates["Additional_Aerodromes"]` (line 30). -/
def ad2Url (date : String) (i : Nat) : String :=
  aipBase ++ date ++ "/Ad2-" ++ Nat.repr i ++ ".pdf"

/-- `fixed_urls["Heading"]` (line 35). -/
def headingUrl (date : String) : String :=
  aipBase ++ date ++ "/AIP%20Uruguay%20%20CaraEspa%C3%B1ol%20.pdf"

/-- `fixed_urls["Amendment"]` (line 36). -/
def amdtUrl (date : String) : String :=
  aipBase ++ date ++ "/AIPAMDT.pdf"

/-- The per-URL boolean prober the driver passes around: `url_exists`
with `max_retries = 3` against the network oracle `net`, which gives the
outcome of each attempt against each URL. -/
def uxOf (net : String → Nat → HttpOutcome) : String → Bool :=
  fun url => url_exists (net url) 3

/-- The per-URL download-success test: `download_pdf` with
`max_retries = 3` against the fetch oracle. -/
def dlOkOf (fetch : String → Nat → FetchOutcome) : String → Bool :=
  fun url => (download_pdf (fetch url) 3).1

/-- Destination filename for ordinal `i` of an iterable group
(source line 138). -/
def pdfFileName (group : String) (i : Nat) : String :=
  output_dir ++ "/" ++ group ++ "_" ++ Nat.repr i ++ ".pdf"

/-- Destination filename for a fixed group (source line 165). -/
def fixedFileName (group : String) : String :=
  output_dir ++ "/" ++ group ++ ".pdf"

/-- `download_fixed_pdf` (source lines 163-172). -/
def download_fixed_pdf (ux dlb : String → Bool) (group : String) (urlF : String → String) (date : String) : List String :=
  if ux (urlF date) then
    (if dlb (urlF date) then [fixedFileName group] else [])
  else []

/-- `download_iterable_pdfs` at the driver level: enumeration over the
concrete URLs of a group for a resolved month, then submission-order
collection of the successful downloads as filenames. -/
def download_iterable_files (ux dlb : String → Bool) (group : String) (urlF : String → Nat → String) (date : String) (fuel : Nat) : Option (List String) :=
  (enumGo (fun i => ux (urlF date i)) fuel ⟨0, 0, []⟩).map fun s =>
    (s.tasks.filter fun i => dlb (urlF date i)).map fun i => pdfFileName group i

/-- Driver step for one fixed group (source lines 178-185 and 199-206):
resolve the date; a crash propagates, an unresolved date skips the
group, a resolved date downloads the single file. -/
def runFixedGroup (ux dlb : String → Bool) (group : String) (urlF : String → String) (start : Date) (fm : Nat) : Option (List String) :=
  match find_valid_date_for_group ux (.fixedT urlF) start fm with
  | none => none
  | some (none, _) => some []
  | some (some ds, _) => some (download_fixed_pdf ux dlb group urlF ds)

/-- Driver step for one iterable group (source lines 188-196). -/
def runIterableGroup (ux dlb : String → Bool) (group : String) (urlF : String → Nat → String) (start : Date) (fm fi : Nat) : Option (List String) :=
  match find_valid_date_for_group ux (.iter urlF) start fm with
  | none => none
  | some (none, _) => some []
  | some (some ds, _) => download_iterable_files ux dlb group urlF ds fi

/-- The name of the combined output artifact (source line 214):
`f"aip_uruguay_compiled_{current_date.strftime('%Y-%m')}.pdf"`, built
from `current_date` — the date the run was started. -/
def output_pdf (current : Date) : String :=
  "aip_uruguay_compiled_" ++ formatYM current ++ ".pdf"

/-- `all_downloaded_files` as accumulated by the driver (source lines
175-206): Heading first, then the four iterable groups in the
`url_templates` order, then Amendment.  `none` propagates a crash or
fuel exhaustion. -/
def collectAllFiles (net : String → Nat → HttpOutcome) (fetch : String → Nat → FetchOutcome) (current : Date) (fm fi : Nat) : Option (List String) := do
  let ux := uxOf net
  let dlb := dlOkOf fetch
  let f1 ← runFixedGroup ux dlb "Heading" headingUrl current fm
  let f2 ← runIterableGroup ux dlb "General" genUrl current fm fi
  let f3 ← runIterableGroup ux dlb "EnRoute" enrUrl current fm fi
  let f4 ← runIterableGroup ux dlb "Aerodromes" adUrl current fm fi
  let f5 ← runIterableGroup ux dlb "Additional_Aerodromes" ad2Url current fm fi
  let f6 ← runFixedGroup ux dlb "Amendment" amdtUrl current fm
  return f1 ++ f2 ++ f3 ++ f4 ++ f5 ++ f6

/-- The whole run (source lines 175-221): accumulate the ordered file
list, then produce the combined artifact name when the list is nonempty
(lines 209-218) and no artifact otherwise (lines 219-221). -/
def run (net : String → Nat → HttpOutcome) (fetch : String → Nat → FetchOutcome) (current : Date) (fm fi : Nat) : Option (List String × Option String) :=
  (collectAllFiles net fetch current fm fi).map fun files =>
    (files, if files.isEmpty then none else some (output_pdf current))

/-- Attempt oracle: unexpected status 500 on the first attempt, then 200. -/
def att500 : Nat → HttpOutcome := fun n => if n = 0 then .status 500 else .status 200

/-- Attempt oracle: unexpected status 503 on the first attempt, then
network errors — no attempt ever yields a definitive 200/404. -/
def attFlaky : Nat → HttpOutcome := fun n => if n = 0 then .status 503 else .netError

/-- Attempt oracle: a definitive 404 on every attempt. -/
def att404c : Nat → HttpOutcome := fun _ => .status 404

/-- Attempt oracle: a network error on the first attempt, then 200. -/
def attNet1 : Nat → HttpOutcome := fun n => if n = 0 then .netError else .status 200

/-- Per-ordinal attempt oracles: ordinal 2 probes as indeterminate
(network errors on every attempt), every other ordinal as a definitive
404. -/
def att3Probe : Nat → Nat → HttpOutcome :=
  fun i => if i = 2 then (fun _ => .netError) else (fun _ => .status 404)

/-- Probe oracle: only ordinal 0 exists. -/
def pb10 : Nat → Bool := fun i => decide (i = 0)

/-- Download oracle: every download succeeds. -/
def dlTrue : Nat → Bool := fun _ => true

/-- Download oracle: every download fails. -/
def dlFalse : Nat → Bool := fun _ => false

/-- Fetch oracle: first GET succeeds with a 2048-byte body. -/
def faGood : Nat → FetchOutcome := fun _ => .ok 2048

/-- Fetch oracle: first GET succeeds with a 50-byte body (undersized). -/
def faSmall : Nat → FetchOutcome := fun _ => .ok 50

/-- Per-ordinal fetch oracles: every ordinal downloads 2048 bytes. -/
def fasGood : Nat → Nat → FetchOutcome := fun _ => faGood

/-- Three submitted download tasks: ordinals 5, 6, 7, of which 6 fails. -/
def tasks0 : List (Nat × Bool) := [(5, true), (6, false), (7, true)]

/-- A completion order for `tasks0`: task 2 finishes first, then 0, then 1. -/
def order0 : List Nat := [2, 0, 1]

/-- Network oracle for a whole run: every group's documents exist at
month 2025-01 (heading, amendment, and ordinal 0 of each iterable
group), and nowhere else; every response is definitive. -/
def exampleNet : String → Nat → HttpOutcome := fun url _ =>
  if url = headingUrl "2025-01" ∨ url = amdtUrl "2025-01" ∨ url = genUrl "2025-01" 0
      ∨ url = enrUrl "2025-01" 0 ∨ url = adUrl "2025-01" 0 ∨ url = ad2Url "2025-01" 0
  then .status 200 else .status 404

/-- Fetch oracle for a whole run: every download yields 2048 bytes. -/
def exampleFetch : String → Nat → FetchOutcome := fun _ _ => .ok 2048

/-- The start date the source's comment documents (line 17,
"Today: 2025-02-23"). -/
def exampleStart : Date := ⟨2025, 2, 23⟩

/-- Boolean prober for the date-resolver scenario: only the General
ordinal 0 of month 2024-11 exists. -/
def ux8 : String → Bool := fun u => decide (u = genUrl "2024-11" 0)

/-- If no attempt from `n` on yields a definitive 200 or 404, the retry
loop of `url_exists` returns `true`. -/
theorem urlExistsGo_fst_true (att : Nat → HttpOutcome) (R : Nat) :
    ∀ fuel n, (∀ m, m < n + fuel → ∀ c, att m = .status c → c ≠ 200 ∧ c ≠ 404) →
      (urlExistsGo att R fuel n).1 = true := by
  intro fuel
  induction fuel with
  | zero => intro n _; rfl
  | succ f ih =>
    intro n h
    cases hatt : att n with
    | status c =>
      have hc := h n (by omega) c hatt
      simp only [urlExistsGo, hatt]
      rw [if_neg hc.1, if_neg hc.2]
      split
      · rfl
      · exact ih (n+1) (fun m hm c2 hc2 => h m (by omega) c2 hc2)
    | netError =>
      simp only [urlExistsGo, hatt]
      split
      · rfl
      · exact ih (n+1) (fun m hm c2 hc2 => h m (by omega) c2 hc2)

/-- The retry loop of `url_exists` returns `false` only when some
attempt within the bound returned a 404. -/
theorem urlExistsGo_fst_false (att : Nat → HttpOutcome) (R : Nat) :
    ∀ fuel n, (urlExistsGo att R fuel n).1 = false →
      ∃ m, n ≤ m ∧ m < n + fuel ∧ att m = .status 404 := by
  intro fuel
  induction fuel with
  | zero => intro n h; simp [urlExistsGo] at h
  | succ f ih =>
    intro n h
    cases hatt : att n with
    | status c =>
      simp only [urlExistsGo, hatt] at h
      by_cases h200 : c = 200
      · rw [if_pos h200] at h; simp at h
      · rw [if_neg h200] at h
        by_cases h404 : c = 404
        · exact ⟨n, le_refl n, by omega, by rw [hatt, h404]⟩
        · rw [if_neg h404] at h
          split at h
          · simp at h
          · obtain ⟨m, hm1, hm2, hm3⟩ := ih (n+1) h
            exact ⟨m, by omega, by omega, hm3⟩
    | netError =>
      simp only [urlExistsGo, hatt] at h
      split at h
      · simp at h
      · obtain ⟨m, hm1, hm2, hm3⟩ := ih (n+1) h
        exact ⟨m, by omega, by omega, hm3⟩

/-- Claim C5: the Existence Prober fails open.  If no attempt yields a
definitive 200 or 404 status (only other statuses or network-level
failures, through all retries), `url_exists` reports the URL as
existing (`true`); it reports it as absent (`false`, i.e.
`ConfirmedAbsent`) only when some attempt returned 404. -/
theorem c5_prober_fails_open (att : Nat → HttpOutcome) (R : Nat) :
    ((∀ n, n < R → ∀ c, att n = .status c → c ≠ 200 ∧ c ≠ 404) → url_exists att R = true)
    ∧ (url_exists att R = false → ∃ n, n < R ∧ att n = .status 404) := by
  constructor
  · intro h
    exact urlExistsGo_fst_true att R R 0 (fun m hm c hc => h m (by omega) c hc)
  · intro h
    obtain ⟨m, _, hm2, hm3⟩ := urlExistsGo_fst_false att R R 0 h
    exact ⟨m, by omega, hm3⟩

/-- Witness for C5 at concrete inputs: a probe whose attempts are
503 / network error / network error reports the URL as existing, and a
probe that reports `false` did see a 404. -/
theorem c5_prober_fails_open_witness :
    url_exists attFlaky 3 = true ∧ (∃ n, n < 3 ∧ att404c n = .status 404) := by
  constructor
  · apply (c5_prober_fails_open attFlaky 3).1
    intro n hn c hc
    interval_cases n
    · simp [attFlaky] at hc; omega
    · simp [attFlaky] at hc
    · simp [attFlaky] at hc
  · exact (c5_prober_fails_open att404c 3).2 (by decide)

/-- Every retry the `url_exists` loop performs is of one of two kinds:
after an unexpected status it proceeds to the next attempt with no wait
(`none`), and after a network-level failure it sleeps `2 ^ attempt`
before the next attempt. -/
theorem urlExistsGo_retry_spec (att : Nat → HttpOutcome) (R : Nat) :
    ∀ fuel k n s, (n, s) ∈ (urlExistsGo att R fuel k).2 →
      (∃ c, att n = .status c ∧ c ≠ 200 ∧ c ≠ 404 ∧ s = none)
      ∨ (att n = .netError ∧ s = some (2 ^ n)) := by
  intro fuel
  induction fuel with
  | zero => intro k n s h; simp [urlExistsGo] at h
  | succ f ih =>
    intro k n s h
    cases hatt : att k with
    | status c =>
      simp only [urlExistsGo, hatt] at h
      by_cases h200 : c = 200
      · rw [if_pos h200] at h; simp at h
      · rw [if_neg h200] at h
        by_cases h404 : c = 404
        · rw [if_pos h404] at h; simp at h
        · rw [if_neg h404] at h
          split at h
          · simp at h
          · simp only [List.mem_cons] at h
            rcases h with h | h
            · injection h with h1 h2
              subst h1; subst h2
              exact Or.inl ⟨c, hatt, h200, h404, rfl⟩
            · exact ih (k+1) n s h
    | netError =>
      simp only [urlExistsGo, hatt] at h
      split at h
      · simp at h
      · simp only [List.mem_cons] at h
        rcases h with h | h
        · injection h with h1 h2
          subst h1; subst h2
          exact Or.inr ⟨hatt, rfl⟩
        · exact ih (k+1) n s h

/-- Claim C6, amended: not every retry of the Existence Prober is
preceded by an exponential-backoff wait.  Only a retry triggered by a
network-level failure sleeps (`2 ^ attempt` seconds, line 62); a retry
triggered by an unexpected HTTP status (e.g. 500, 503) proceeds to the
next attempt immediately with no wait (lines 55-56 fall through to the
next loop iteration without sleeping). -/
theorem c6_backoff_only_on_network_errors (att : Nat → HttpOutcome) (R n : Nat) (s : Option Nat)
    (h : (n, s) ∈ (urlExistsRun att R).2) :
    (∃ c, att n = .status c ∧ c ≠ 200 ∧ c ≠ 404 ∧ s = none)
    ∨ (att n = .netError ∧ s = some (2 ^ n)) :=
  urlExistsGo_retry_spec att R R 0 n s h

/-- Counterexample to C6 as stated: with a 500 on the first attempt and
a 200 on the second, the loop retries (the trace of continuations is
nonempty) yet not every retry carries a backoff wait — the 500-triggered
retry happened immediately. -/
theorem c6_backoff_counterexample :
    ¬ ∀ p ∈ (urlExistsRun att500 3).2, p.2.isSome = true := by decide

/-- Witness for the amended C6 at a concrete input: the retry after a
network error on attempt 0 slept `2 ^ 0`. -/
theorem c6_backoff_witness :
    (∃ c, attNet1 0 = .status c ∧ c ≠ 200 ∧ c ≠ 404 ∧ (some 1 : Option Nat) = none)
    ∨ (attNet1 0 = .netError ∧ (some 1 : Option Nat) = some (2 ^ 0)) :=
  c6_backoff_only_on_network_errors attNet1 3 0 (some 1) (by decide)

/-- Once the miss counter has reached the tolerance, the enumeration
loop exits immediately with the current state. -/
theorem enumGo_done (probeB : Nat → Bool) (fuel : Nat) (s : EnumState)
    (h : MAX_CONSECUTIVE_404S ≤ s.misses) : enumGo probeB fuel s = some s := by
  cases fuel <;> simp [enumGo, h]

/-- Processing an existing ordinal: the counter resets to zero and the
ordinal's download task is appended, whatever the counter was. -/
theorem enumGo_hit (probeB : Nat → Bool) (fuel k m : Nat) (ts : List Nat)
    (hp : probeB k = true) (hm : m < MAX_CONSECUTIVE_404S) :
    enumGo probeB (fuel+1) ⟨k, m, ts⟩ = enumGo probeB fuel ⟨k+1, 0, ts ++ [k]⟩ := by
  have hmm : ¬ MAX_CONSECUTIVE_404S ≤ m := by omega
  simp only [enumGo]
  rw [if_neg hmm]
  congr 1
  simp [enumStep, hp]

/-- Processing a block of `r` consecutive confirmed-absent ordinals:
the counter climbs by `r` while no task is submitted, as long as the
tolerance is not exceeded within the block. -/
theorem enumGo_absent_run (probeB : Nat → Bool) :
    ∀ (r k m : Nat) (ts : List Nat) (fuel : Nat),
      (∀ j, j < r → probeB (k+j) = false) →
      m + r ≤ MAX_CONSECUTIVE_404S → r ≤ fuel →
      enumGo probeB fuel ⟨k, m, ts⟩ = enumGo probeB (fuel - r) ⟨k + r, m + r, ts⟩ := by
  intro r
  induction r with
  | zero => intro k m ts fuel _ _ _; simp
  | succ q ih =>
    intro k m ts fuel hp hm hf
    obtain ⟨f, rfl⟩ : ∃ f, fuel = f + 1 := ⟨fuel - 1, by omega⟩
    have hmm : ¬ MAX_CONSECUTIVE_404S ≤ m := by omega
    have h0 : probeB k = false := by
      have := hp 0 (by omega)
      simpa using this
    have hstep : enumGo probeB (f+1) ⟨k, m, ts⟩ = enumGo probeB f ⟨k+1, m+1, ts⟩ := by
      simp only [enumGo]
      rw [if_neg hmm]
      congr 1
      simp [enumStep, h0]
    rw [hstep]
    rw [ih (k+1) (m+1) ts f (fun j hj => by
          have := hp (j+1) (by omega)
          rwa [show k + 1 + j = k + (j+1) from by omega]) (by omega) (by omega)]
    rw [show f - q = f + 1 - (q+1) from by omega,
        show k + 1 + q = k + (q+1) from by omega,
        show m + 1 + q = m + (q+1) from by omega]

/-- Claim C2: iterable-group enumeration terminates exactly at the
ordinal where the consecutive confirmed-absent counter reaches the miss
tolerance `MAX_CONSECUTIVE_404S = 5`, and never earlier.  Part one: from
a reset counter, five consecutive absent ordinals make the loop exit
right after the fifth, having submitted nothing further.  Part two: a
run of at most four consecutive absent ordinals followed by an existing
ordinal does not terminate enumeration — the loop continues past the gap
with the counter reset to zero and the existing ordinal submitted. -/
theorem c2_termination_at_tolerance (probeB : Nat → Bool) (ts : List Nat) (fuel : Nat) :
    (∀ k, (∀ j, j < MAX_CONSECUTIVE_404S → probeB (k+j) = false) →
      MAX_CONSECUTIVE_404S ≤ fuel →
      enumGo probeB fuel ⟨k, 0, ts⟩
        = some ⟨k + MAX_CONSECUTIVE_404S, MAX_CONSECUTIVE_404S, ts⟩)
    ∧ (∀ k r, r + 1 ≤ MAX_CONSECUTIVE_404S →
      (∀ j, j < r → probeB (k+j) = false) → probeB (k+r) = true → r + 1 ≤ fuel →
      enumGo probeB fuel ⟨k, 0, ts⟩
        = enumGo probeB (fuel - (r+1)) ⟨k + r + 1, 0, ts ++ [k+r]⟩) := by
  constructor
  · intro k hp hf
    rw [enumGo_absent_run probeB MAX_CONSECUTIVE_404S k 0 ts fuel hp (by omega) (by omega)]
    simp only [Nat.zero_add]
    exact enumGo_done probeB _ _ (le_refl _)
  · intro k r hr hp hphit hf
    rw [enumGo_absent_run probeB r k 0 ts fuel hp (by omega) (by omega)]
    simp only [Nat.zero_add]
    obtain ⟨g, hg⟩ : ∃ g, fuel - r = g + 1 := ⟨fuel - r - 1, by omega⟩
    rw [hg, enumGo_hit probeB g (k+r) r ts hphit (by omega)]
    rw [show g = fuel - (r+1) from by omega]

/-- Witness for C2 at concrete inputs: with only ordinal 0 existing,
five misses from ordinal 1 terminate the loop exactly there, and the
existing ordinal 0 is processed with a counter reset. -/
theorem c2_termination_at_tolerance_witness :
    enumGo pb10 10 ⟨1, 0, []⟩
      = some ⟨1 + MAX_CONSECUTIVE_404S, MAX_CONSECUTIVE_404S, []⟩
    ∧ enumGo pb10 10 ⟨0, 0, []⟩
      = enumGo pb10 (10 - (0+1)) ⟨0 + 0 + 1, 0, [] ++ [0+0]⟩ :=
  ⟨(c2_termination_at_tolerance pb10 [] 10).1 1 (by decide) (by decide),
   (c2_termination_at_tolerance pb10 [] 10).2 0 0 (by decide) (by decide) (by decide) (by decide)⟩

/-- The boolean result of the `url_exists` retry loop is `false` exactly
when its tri-state classification is `confirmedAbsent`. -/
theorem urlExistsGo_false_iff_classify (att : Nat → HttpOutcome) (R : Nat) :
    ∀ fuel n, ((urlExistsGo att R fuel n).1 = false ↔ classifyGo att R fuel n = .confirmedAbsent) := by
  intro fuel
  induction fuel with
  | zero => intro n; simp [urlExistsGo, classifyGo]
  | succ f ih =>
    intro n
    cases hatt : att n with
    | status c =>
      simp only [urlExistsGo, classifyGo, hatt]
      by_cases h200 : c = 200
      · simp [h200]
      · rw [if_neg h200, if_neg h200]
        by_cases h404 : c = 404
        · simp [h404]
        · rw [if_neg h404, if_neg h404]
          split
          · simp
          · exact ih (n+1)
    | netError =>
      simp only [urlExistsGo, classifyGo, hatt]
      split
      · simp
      · exact ih (n+1)

/-- An indeterminate probe behaves as "exists" for the caller:
`url_exists` returns `true`. -/
theorem url_exists_of_indeterminate (att : Nat → HttpOutcome) (R : Nat)
    (h : classifyProbe att R = .indeterminate) : url_exists att R = true := by
  cases hb : (urlExistsGo att R R 0).1 with
  | false =>
    have hc := (urlExistsGo_false_iff_classify att R R 0).1 hb
    rw [show classifyProbe att R = classifyGo att R R 0 from rfl, hc] at h
    cases h
  | true => exact hb

/-- A confirmed-absent probe makes `url_exists` return `false`. -/
theorem url_exists_of_confirmedAbsent (att : Nat → HttpOutcome) (R : Nat)
    (h : classifyProbe att R = .confirmedAbsent) : url_exists att R = false :=
  (urlExistsGo_false_iff_classify att R R 0).2 h

/-- Claim C3: an Indeterminate probe result never counts toward
enumeration termination.  In a tolerance-length run of absences where
position `j` probes as `Indeterminate` instead of `ConfirmedAbsent`, the
loop does not exit after the run: the indeterminate ordinal is treated
as existing (its download is submitted, the counter resets there), and
the loop is still running after the block with the counter strictly
below the tolerance. -/
theorem c3_indeterminate_prevents_termination (att : Nat → Nat → HttpOutcome)
    (k j : Nat) (ts : List Nat) (fuel : Nat)
    (hj : j < MAX_CONSECUTIVE_404S)
    (habs : ∀ i, i < MAX_CONSECUTIVE_404S → i ≠ j → classifyProbe (att (k+i)) 3 = .confirmedAbsent)
    (hind : classifyProbe (att (k+j)) 3 = .indeterminate)
    (hf : MAX_CONSECUTIVE_404S ≤ fuel) :
    enumGo (fun i => url_exists (att i) 3) fuel ⟨k, 0, ts⟩
      = enumGo (fun i => url_exists (att i) 3) (fuel - MAX_CONSECUTIVE_404S)
          ⟨k + MAX_CONSECUTIVE_404S, MAX_CONSECUTIVE_404S - 1 - j, ts ++ [k+j]⟩
    ∧ MAX_CONSECUTIVE_404S - 1 - j < MAX_CONSECUTIVE_404S := by
  have hM : MAX_CONSECUTIVE_404S = 5 := rfl
  have hfalse : ∀ i, i < MAX_CONSECUTIVE_404S → i ≠ j →
      url_exists (att (k+i)) 3 = false :=
    fun i h1 h2 => url_exists_of_confirmedAbsent _ _ (habs i h1 h2)
  have htrue : url_exists (att (k+j)) 3 = true := url_exists_of_indeterminate _ _ hind
  refine ⟨?_, by omega⟩
  rw [enumGo_absent_run (fun i => url_exists (att i) 3) j k 0 ts fuel
        (fun i hi => hfalse i (by omega) (by omega)) (by omega) (by omega)]
  simp only [Nat.zero_add]
  obtain ⟨g, hg⟩ : ∃ g, fuel - j = g + 1 := ⟨fuel - j - 1, by omega⟩
  rw [hg, enumGo_hit (fun i => url_exists (att i) 3) g (k+j) j ts htrue (by omega)]
  rw [enumGo_absent_run (fun i => url_exists (att i) 3) (MAX_CONSECUTIVE_404S - 1 - j)
        (k+j+1) 0 (ts ++ [k+j]) g
        (fun i hi => by
          have := hfalse (j+1+i) (by omega) (by omega)
          rwa [show k+j+1+i = k+(j+1+i) from by omega]) (by omega) (by omega)]
  rw [show g - (MAX_CONSECUTIVE_404S - 1 - j) = fuel - MAX_CONSECUTIVE_404S from by omega,
      show k+j+1+(MAX_CONSECUTIVE_404S - 1 - j) = k + MAX_CONSECUTIVE_404S from by omega]
  simp only [Nat.zero_add]

/-- Witness for C3 at concrete inputs: ordinals 0..4 probe as
confirmed-absent except ordinal 2, which probes as indeterminate
(network errors through all retries); the loop is still running after
ordinal 4 with counter 2 and ordinal 2 submitted. -/
theorem c3_indeterminate_prevents_termination_witness :
    enumGo (fun i => url_exists (att3Probe i) 3) 10 ⟨0, 0, []⟩
      = enumGo (fun i => url_exists (att3Probe i) 3) (10 - MAX_CONSECUTIVE_404S)
          ⟨0 + MAX_CONSECUTIVE_404S, MAX_CONSECUTIVE_404S - 1 - 2, [] ++ [0+2]⟩
    ∧ MAX_CONSECUTIVE_404S - 1 - 2 < MAX_CONSECUTIVE_404S :=
  c3_indeterminate_prevents_termination att3Probe 0 2 [] 10
    (by decide) (by decide) (by decide) (by decide)

/-- Claim C10: enumeration termination depends only on probe results,
never on download outcomes.  First part: the whole enumeration — whether
it stops within the fuel, and at which final ordinal — is unchanged when
every download outcome is replaced; only the success-filtered file list
can differ.  Second part: an ordinal whose probe reports existing resets
the miss counter to zero at submission time, before any download result
exists. -/
theorem c10_termination_ignores_downloads (probeB dl dl2 : Nat → Bool) (fuel : Nat) :
    ((download_iterable_pdfs probeB dl fuel).isSome
        = (download_iterable_pdfs probeB dl2 fuel).isSome
      ∧ (download_iterable_pdfs probeB dl fuel).map Prod.fst
        = (download_iterable_pdfs probeB dl2 fuel).map Prod.fst)
    ∧ (∀ i m ts, probeB i = true → enumStep probeB ⟨i, m, ts⟩ = ⟨i + 1, 0, ts ++ [i]⟩) := by
  refine ⟨⟨?_, ?_⟩, ?_⟩
  · unfold download_iterable_pdfs
    cases enumGo probeB fuel ⟨0, 0, []⟩ <;> simp
  · unfold download_iterable_pdfs
    cases enumGo probeB fuel ⟨0, 0, []⟩ <;> simp
  · intro i m ts hp
    simp [enumStep, hp]

/-- Witness for C10 at concrete inputs: with only ordinal 0 existing,
all downloads succeeding versus all downloads failing leaves the stop
ordinal unchanged, and the probe-hit at ordinal 0 resets a counter of 3
to zero. -/
theorem c10_termination_ignores_downloads_witness :
    (download_iterable_pdfs pb10 dlTrue 10).map Prod.fst
      = (download_iterable_pdfs pb10 dlFalse 10).map Prod.fst
    ∧ enumStep pb10 ⟨0, 3, []⟩ = ⟨1, 0, [0]⟩ :=
  ⟨(c10_termination_ignores_downloads pb10 dlTrue dlFalse 10).1.2,
   (c10_termination_ignores_downloads pb10 dlTrue dlFalse 10).2 0 3 [] (by decide)⟩

/-- Looking a task index up in the completion log by identity returns
that task's own value, wherever the index appears in the completion
order. -/
theorem lookup_completion_log (val : Nat → Bool) :
    ∀ (order : List Nat) (k : Nat), k ∈ order →
      List.lookup k (order.map fun i => (i, val i)) = some (val k) := by
  intro order
  induction order with
  | nil => intro k hk; cases hk
  | cons a l ih =>
    intro k hk
    by_cases h : k = a
    · subst h
      simp [List.lookup]
    · have hne : (k == a) = false := by simp [h]
      have hk2 : k ∈ l := by
        rcases List.mem_cons.1 hk with h1 | h1
        · exact absurd h1 h
        · exact h1
      simp [List.lookup, hne, ih k hk2]

/-- `filterMap` only depends on the function's values on the list. -/
theorem filterMap_congr_of_mem {α β : Type} :
    ∀ (l : List α) (f g : α → Option β), (∀ a ∈ l, f a = g a) →
      l.filterMap f = l.filterMap g := by
  intro l f g
  induction l with
  | nil => intro _; rfl
  | cons a l ih =>
    intro h
    simp only [List.filterMap_cons, h a (by simp),
      ih (fun b hb => h b (by simp [hb]))]

/-- Reading a task list through `List.range` of its length and `getD`
and filtering on the success component is the same as filtering the list
itself. -/
theorem range_getD_filterMap :
    ∀ (tasks : List (Nat × Bool)),
      (List.range tasks.length).filterMap
          (fun k => if (tasks.getD k (0, false)).2 then some (tasks.getD k (0, false)).1 else none)
        = (tasks.filter fun t => t.2).map Prod.fst := by
  intro tasks
  induction tasks with
  | nil => rfl
  | cons t ts ih =>
    rw [List.length_cons, List.range_succ_eq_map, List.filterMap_cons, List.filterMap_map]
    have hcomp : ((fun k => if ((t :: ts).getD k (0, false)).2
          then some ((t :: ts).getD k (0, false)).1 else none) ∘ Nat.succ)
        = fun k => if (ts.getD k (0, false)).2 then some (ts.getD k (0, false)).1 else none := by
      funext k
      simp [Function.comp, List.getD_cons_succ]
    rw [hcomp, ih]
    cases ht : t.2 <;> simp [List.filter_cons, ht, List.getD_cons_zero]

/-- Claim C4: for every ordered task list and every completion order of
the futures (any permutation of the submitted indices, i.e. any
assignment of per-task latencies), the collected result equals the
submission-order sequence restricted to the successful tasks; completion
order never reorders the result. -/
theorem c4_collection_in_submission_order (tasks : List (Nat × Bool)) (order : List Nat)
    (hperm : order.Perm (List.range tasks.length)) :
    gatherResults tasks (mkCompletionLog tasks order)
      = (tasks.filter fun t => t.2).map Prod.fst := by
  unfold gatherResults mkCompletionLog
  have hcong : ∀ k ∈ List.range tasks.length,
      (match List.lookup k (order.map fun i => (i, (tasks.getD i (0, false)).2)) with
        | some true => some (tasks.getD k (0, false)).1
        | _ => none)
      = (if (tasks.getD k (0, false)).2 then some (tasks.getD k (0, false)).1 else none) := by
    intro k hk
    have hkord : k ∈ order := hperm.mem_iff.2 hk
    rw [lookup_completion_log _ order k hkord]
    cases h2 : (tasks.getD k (0, false)).2 <;> simp
  exact (filterMap_congr_of_mem _ _ _ hcong).trans (range_getD_filterMap tasks)

/-- Witness for C4 at concrete inputs: tasks (5, ok), (6, fail),
(7, ok) with completion order "task 2 first, then 0, then 1" still
collect as [5, 7], the submission order of the successes. -/
theorem c4_collection_in_submission_order_witness :
    gatherResults tasks0 (mkCompletionLog tasks0 order0) = [5, 7] := by
  rw [c4_collection_in_submission_order tasks0 order0 (by decide)]
  decide

/-- Every `download_pdf` call ends in one of exactly three shapes: no
write at all and failure; an undersized write immediately removed and
failure; or a sufficiently large write kept and success. -/
theorem downloadGo_cases (fa : Nat → FetchOutcome) (R : Nat) :
    ∀ fuel n, downloadGo fa R fuel n = (false, [])
      ∨ (∃ s, s < MIN_FILE_SIZE ∧ downloadGo fa R fuel n = (false, [.write s, .remove]))
      ∨ (∃ s, MIN_FILE_SIZE ≤ s ∧ downloadGo fa R fuel n = (true, [.write s])) := by
  intro fuel
  induction fuel with
  | zero => intro n; exact Or.inl rfl
  | succ f ih =>
    intro n
    cases hatt : fa n with
    | ok size =>
      simp only [downloadGo, hatt]
      by_cases hs : size < MIN_FILE_SIZE
      · exact Or.inr (Or.inl ⟨size, hs, by rw [if_pos hs]⟩)
      · exact Or.inr (Or.inr ⟨size, by omega, by rw [if_neg hs]⟩)
    | err =>
      simp only [downloadGo, hatt]
      split
      · exact Or.inl rfl
      · exact ih (n+1)

/-- Claim C7: the minimum-size invariant of the Document Fetcher.
Part one, for every fetch: a successful fetch leaves a stored file of at
least `MIN_FILE_SIZE` bytes; and every undersized write is immediately
followed by the file's removal, the fetch reports failure, and no file
remains stored.  Part two: every ordinal in the final ordered list of
`download_iterable_pdfs` has a stored artifact of at least
`MIN_FILE_SIZE` bytes. -/
theorem c7_min_size_invariant (R : Nat) :
    (∀ fa : Nat → FetchOutcome,
      ((download_pdf fa R).1 = true →
        ∃ s, storedSize (download_pdf fa R).2 = some s ∧ MIN_FILE_SIZE ≤ s)
      ∧ (∀ k s, (download_pdf fa R).2.get? k = some (.write s) → s < MIN_FILE_SIZE →
          (download_pdf fa R).2.get? (k+1) = some .remove
            ∧ (download_pdf fa R).1 = false
            ∧ storedSize (download_pdf fa R).2 = none))
    ∧ (∀ (fas : Nat → Nat → FetchOutcome) (probeB : Nat → Bool) (fuel stopIter : Nat)
        (files : List Nat) (i : Nat),
        download_iterable_pdfs probeB (fun j => (download_pdf (fas j) R).1) fuel
          = some (stopIter, files) →
        i ∈ files →
        ∃ s, storedSize (download_pdf (fas i) R).2 = some s ∧ MIN_FILE_SIZE ≤ s) := by
  have hdp : ∀ fa : Nat → FetchOutcome, download_pdf fa R = downloadGo fa R R 0 :=
    fun _ => rfl
  have key : ∀ fa : Nat → FetchOutcome, (download_pdf fa R).1 = true →
      ∃ s, storedSize (download_pdf fa R).2 = some s ∧ MIN_FILE_SIZE ≤ s := by
    intro fa h1
    rcases downloadGo_cases fa R R 0 with h | ⟨s, _, h⟩ | ⟨s, hs, h⟩
    · rw [hdp fa, h] at h1; simp at h1
    · rw [hdp fa, h] at h1; simp at h1
    · refine ⟨s, ?_, hs⟩
      rw [hdp fa, h]
      rfl
  constructor
  · intro fa
    refine ⟨key fa, ?_⟩
    intro k s hk hs
    rcases downloadGo_cases fa R R 0 with h | ⟨s2, hs2, h⟩ | ⟨s2, hs2, h⟩
    · rw [hdp fa, h] at hk; simp at hk
    · rw [hdp fa, h] at hk ⊢
      rcases k with _ | _ | k
      · refine ⟨rfl, rfl, rfl⟩
      · simp at hk
      · simp at hk
    · rw [hdp fa, h] at hk
      rcases k with _ | k
      · have : FsEv.write s2 = FsEv.write s := by simpa using hk
        injection this with h3
        omega
      · simp at hk
  · intro fas probeB fuel stopIter files i hdl hi
    unfold download_iterable_pdfs at hdl
    cases henum : enumGo probeB fuel ⟨0, 0, []⟩ with
    | none => rw [henum] at hdl; simp at hdl
    | some st =>
      rw [henum] at hdl
      simp only [Option.map_some', Option.some.injEq, Prod.mk.injEq] at hdl
      have hmem : i ∈ st.tasks.filter (fun j => (download_pdf (fas j) R).1) := by
        rw [hdl.2]; exact hi
      exact key (fas i) ((List.mem_filter.1 hmem).2)

/-- Witness for C7 at concrete inputs: a 2048-byte fetch succeeds and
stores 2048 ≥ 1024 bytes; a 50-byte fetch writes then removes the file,
fails, and stores nothing; and the ordinal collected by an enumeration
whose downloads all return 2048 bytes has a compliant stored artifact. -/
theorem c7_min_size_invariant_witness :
    (∃ s, storedSize (download_pdf faGood 3).2 = some s ∧ MIN_FILE_SIZE ≤ s)
    ∧ ((download_pdf faSmall 3).2.get? 1 = some .remove
        ∧ (download_pdf faSmall 3).1 = false
        ∧ storedSize (download_pdf faSmall 3).2 = none)
    ∧ (∃ s, storedSize (download_pdf (fasGood 0) 3).2 = some s ∧ MIN_FILE_SIZE ≤ s) := by
  refine ⟨?_, ?_, ?_⟩
  · exact ((c7_min_size_invariant 3).1 faGood).1 (by decide)
  · exact ((c7_min_size_invariant 3).1 faSmall).2 0 50 (by decide) (by decide)
  · exact (c7_min_size_invariant 3).2 fasGood pb10 10 6 [0] 0 (by decide) (by decide)

/-- Every month has at least one day. -/
theorem daysInMonth_pos (y : Int) (m : Nat) : 1 ≤ daysInMonth y m := by
  unfold daysInMonth
  split_ifs <;> omega

/-- The length of every month except February is independent of the
year. -/
theorem daysInMonth_year_indep (y y2 : Int) (m : Nat) (h : m ≠ 2) :
    daysInMonth y m = daysInMonth y2 m := by
  simp [daysInMonth, h]

/-- A valid February 29 only occurs in a leap year. -/
theorem isLeap_of_feb29 (d : Date) (hv : isValidDate d = true)
    (hm : d.month = 2) (hd : d.day = 29) : isLeap d.year = true := by
  simp only [isValidDate, decide_eq_true_eq] at hv
  cases hli : isLeap d.year
  · exfalso
    have h4 := hv.2.2.2
    rw [hm, hd] at h4
    have h28 : daysInMonth d.year 2 = 28 := by simp [daysInMonth, hli]
    rw [h28] at h4
    omega
  · rfl

/-- Two years before a leap year is never a leap year (the year drops
out of the mod-4 class of leap years). -/
theorem not_isLeap_sub_two (y : Int) (h : isLeap y = true) : isLeap (y - 2) = false := by
  simp only [isLeap, decide_eq_true_eq] at h
  simp only [isLeap, decide_eq_false_iff_not]
  omega

/-- `start.replace(year=start.year - 2)` raises exactly on February 29
(for a valid start date): the clamped year is never leap, so day 29 does
not exist in its February; every other valid date survives the year
replacement unchanged. -/
theorem replaceYear_sub_two (d : Date) (hv : isValidDate d = true) :
    (d.month = 2 ∧ d.day = 29 → replaceYear d (d.year - 2) = none)
    ∧ (¬(d.month = 2 ∧ d.day = 29) →
        replaceYear d (d.year - 2) = some ⟨d.year - 2, d.month, d.day⟩) := by
  have hv' := hv
  simp only [isValidDate, decide_eq_true_eq] at hv'
  obtain ⟨h1, h2, h3, h4⟩ := hv'
  constructor
  · rintro ⟨hm, hd⟩
    have hL := isLeap_of_feb29 d hv hm hd
    have hL2 := not_isLeap_sub_two d.year hL
    unfold replaceYear
    rw [if_neg]
    intro hcon
    have hle := hcon.2.2.2
    rw [hm, hd] at hle
    have h28 : daysInMonth (d.year - 2) 2 = 28 := by simp [daysInMonth, hL2]
    rw [h28] at hle
    omega
  · intro hnot
    unfold replaceYear
    rw [if_pos]
    refine ⟨h1, h2, h3, ?_⟩
    by_cases hm : d.month = 2
    · have h29 : daysInMonth d.year 2 ≤ 29 := by
        cases hli : isLeap d.year <;> simp [daysInMonth, hli]
      have hd28 : d.day ≤ 28 := by
        by_cases hdd : d.day = 29
        · exact absurd ⟨hm, hdd⟩ hnot
        · rw [hm] at h4
          omega
      have h28 : 28 ≤ daysInMonth (d.year - 2) 2 := by
        cases hli : isLeap (d.year - 2) <;> simp [daysInMonth, hli]
      rw [hm]
      omega
    · rw [daysInMonth_year_indep (d.year - 2) d.year d.month hm]
      exact h4

/-- Closed form of the backward month step: from any day of a month,
`replace(day=1) - timedelta(days=1)` lands on the last day of the
previous calendar month. -/
theorem prevMonthEnd_eq (d : Date) :
    prevMonthEnd d = if 1 < d.month
      then ⟨d.year, d.month - 1, daysInMonth d.year (d.month - 1)⟩
      else ⟨d.year - 1, 12, 31⟩ := by
  unfold prevMonthEnd firstOfMonth subOneDay
  simp

/-- The backward month step preserves date validity. -/
theorem valid_prevMonthEnd (d : Date) (hv : isValidDate d = true) :
    isValidDate (prevMonthEnd d) = true := by
  simp only [isValidDate, decide_eq_true_eq] at hv
  obtain ⟨h1, h2, h3, h4⟩ := hv
  rw [prevMonthEnd_eq]
  by_cases hm : 1 < d.month
  · rw [if_pos hm]
    simp only [isValidDate, decide_eq_true_eq]
    exact ⟨by omega, by omega, daysInMonth_pos _ _, le_refl _⟩
  · rw [if_neg hm]
    simp only [isValidDate, decide_eq_true_eq]
    refine ⟨by omega, by omega, by omega, ?_⟩
    simp [daysInMonth]

/-- The backward month step moves back exactly one calendar month:
month indices decrease by exactly one, clamped to month boundaries
rather than day arithmetic. -/
theorem monthIdx_prevMonthEnd (d : Date) (hv : isValidDate d = true) :
    monthIdx (prevMonthEnd d) + 1 = monthIdx d := by
  simp only [isValidDate, decide_eq_true_eq] at hv
  obtain ⟨h1, h2, _, _⟩ := hv
  rw [prevMonthEnd_eq]
  by_cases hm : 1 < d.month
  · rw [if_pos hm]
    simp only [monthIdx]
    omega
  · rw [if_neg hm]
    simp only [monthIdx]
    omega

/-- On months within range, a strictly smaller month index implies the
`datetime` order, whatever the days are. -/
theorem dateLe_of_monthIdx_lt (a b : Date) (hbm : b.month ≤ 12)
    (h : monthIdx a < monthIdx b) : dateLe a b = true := by
  simp only [monthIdx] at h
  simp only [dateLe, decide_eq_true_eq]
  omega

/-- One non-matching month of the backward walk: step to the last day
of the previous month, counting the step. -/
theorem findGo_step (ux : String → Bool) (tmpl : GroupTemplate) (limit : Date)
    (fuel : Nat) (d : Date) (steps : Nat) (hfuel : 1 ≤ fuel)
    (hle : dateLe limit d = true) (hnf : groupMonthFound ux tmpl (formatYM d) = false) :
    findGo ux tmpl limit fuel d steps
      = findGo ux tmpl limit (fuel - 1) (prevMonthEnd d) (steps + 1) := by
  obtain ⟨g, rfl⟩ : ∃ g, fuel = g + 1 := ⟨fuel - 1, by omega⟩
  simp [findGo, hle, hnf]

/-- A matching month of the backward walk returns that month's string
with the accumulated step count. -/
theorem findGo_found (ux : String → Bool) (tmpl : GroupTemplate) (limit : Date)
    (fuel : Nat) (d : Date) (steps : Nat) (hfuel : 1 ≤ fuel)
    (hle : dateLe limit d = true) (hf : groupMonthFound ux tmpl (formatYM d) = true) :
    findGo ux tmpl limit fuel d steps = (some (formatYM d), steps) := by
  obtain ⟨g, rfl⟩ : ∃ g, fuel = g + 1 := ⟨fuel - 1, by omega⟩
  simp [findGo, hle, hf]

/-- Claim C9: the horizon computation
`test_date.replace(year=test_date.year - DATE_LIMIT_YEARS)` is partial
exactly at February 29: for a leap-day start it raises (so resolution
fails before any probing, whatever the oracle, template or fuel), and
for every other valid start date it succeeds, so resolution proceeds. -/
theorem c9_feb29_horizon_crash (d : Date) (hv : isValidDate d = true) :
    ((replaceYear d (d.year - DATE_LIMIT_YEARS)).isNone = true ↔ (d.month = 2 ∧ d.day = 29))
    ∧ (d.month = 2 → d.day = 29 →
        ∀ (ux : String → Bool) (tmpl : GroupTemplate) (fuel : Nat),
          find_valid_date_for_group ux tmpl d fuel = none)
    ∧ (¬(d.month = 2 ∧ d.day = 29) →
        ∀ (ux : String → Bool) (tmpl : GroupTemplate) (fuel : Nat),
          find_valid_date_for_group ux tmpl d fuel ≠ none) := by
  have hDL : DATE_LIMIT_YEARS = (2 : Int) := rfl
  have hrs := replaceYear_sub_two d hv
  refine ⟨⟨?_, ?_⟩, ?_, ?_⟩
  · intro hn
    by_contra hnot
    rw [hDL, hrs.2 hnot] at hn
    simp at hn
  · rintro ⟨hm, hd⟩
    rw [hDL, hrs.1 ⟨hm, hd⟩]
    rfl
  · intro hm hd ux tmpl fuel
    unfold find_valid_date_for_group
    rw [hDL, hrs.1 ⟨hm, hd⟩]
  · intro hnot ux tmpl fuel
    unfold find_valid_date_for_group
    rw [hDL, hrs.2 hnot]
    simp

/-- Witness for C9 at concrete inputs: a February 29 start crashes
resolution whatever the oracle, while the source's own start date
2025-02-23 resolves without crashing. -/
theorem c9_feb29_horizon_crash_witness :
    find_valid_date_for_group (fun _ => true) (.fixedT amdtUrl) ⟨2024, 2, 29⟩ 5 = none
    ∧ find_valid_date_for_group (fun _ => true) (.fixedT amdtUrl) exampleStart 5 ≠ none :=
  ⟨(c9_feb29_horizon_crash ⟨2024, 2, 29⟩ (by decide)).2.1 rfl rfl (fun _ => true) (.fixedT amdtUrl) 5,
   (c9_feb29_horizon_crash exampleStart (by decide)).2.2 (by decide) (fun _ => true) (.fixedT amdtUrl) 5⟩

/-- Claim C8: a group that first exists exactly 3 calendar months before
the start month — the three closer months probing as not found, which
for this prober means every probed URL confirmed absent — is resolved to
that month after exactly 3 backward steps, and each backward step moved
back exactly one calendar month (by clamping to month boundaries, never
skipping or repeating a month whatever the start day is). -/
theorem c8_three_backward_steps (ux : String → Bool) (tmpl : GroupTemplate) (d0 : Date)
    (fuel : Nat)
    (hv : isValidDate d0 = true)
    (hnf29 : ¬(d0.month = 2 ∧ d0.day = 29))
    (hfuel : 4 ≤ fuel)
    (hm0 : groupMonthFound ux tmpl (formatYM d0) = false)
    (hm1 : groupMonthFound ux tmpl (formatYM (prevMonthEnd d0)) = false)
    (hm2 : groupMonthFound ux tmpl (formatYM (prevMonthEnd (prevMonthEnd d0))) = false)
    (hm3 : groupMonthFound ux tmpl (formatYM (prevMonthEnd (prevMonthEnd (prevMonthEnd d0)))) = true) :
    find_valid_date_for_group ux tmpl d0 fuel
      = some (some (formatYM (prevMonthEnd (prevMonthEnd (prevMonthEnd d0)))), 3)
    ∧ monthIdx (prevMonthEnd (prevMonthEnd (prevMonthEnd d0))) + 3 = monthIdx d0 := by
  have hDL : DATE_LIMIT_YEARS = (2 : Int) := rfl
  have hv1 := valid_prevMonthEnd d0 hv
  have hv2 := valid_prevMonthEnd _ hv1
  have hv3 := valid_prevMonthEnd _ hv2
  have hi1 := monthIdx_prevMonthEnd d0 hv
  have hi2 := monthIdx_prevMonthEnd _ hv1
  have hi3 := monthIdx_prevMonthEnd _ hv2
  have hrs := (replaceYear_sub_two d0 hv).2 hnf29
  have hb0 : d0.month ≤ 12 := by
    have h := hv; simp only [isValidDate, decide_eq_true_eq] at h; exact h.2.1
  have hb1 : (prevMonthEnd d0).month ≤ 12 := by
    have h := hv1; simp only [isValidDate, decide_eq_true_eq] at h; exact h.2.1
  have hb2 : (prevMonthEnd (prevMonthEnd d0)).month ≤ 12 := by
    have h := hv2; simp only [isValidDate, decide_eq_true_eq] at h; exact h.2.1
  have hb3 : (prevMonthEnd (prevMonthEnd (prevMonthEnd d0))).month ≤ 12 := by
    have h := hv3; simp only [isValidDate, decide_eq_true_eq] at h; exact h.2.1
  have hlim : monthIdx (⟨d0.year - 2, d0.month, d0.day⟩ : Date) = monthIdx d0 - 24 := by
    simp only [monthIdx]
    omega
  have hle0 : dateLe ⟨d0.year - 2, d0.month, d0.day⟩ d0 = true :=
    dateLe_of_monthIdx_lt _ _ hb0 (by omega)
  have hle1 : dateLe ⟨d0.year - 2, d0.month, d0.day⟩ (prevMonthEnd d0) = true :=
    dateLe_of_monthIdx_lt _ _ hb1 (by omega)
  have hle2 : dateLe ⟨d0.year - 2, d0.month, d0.day⟩ (prevMonthEnd (prevMonthEnd d0)) = true :=
    dateLe_of_monthIdx_lt _ _ hb2 (by omega)
  have hle3 : dateLe ⟨d0.year - 2, d0.month, d0.day⟩ (prevMonthEnd (prevMonthEnd (prevMonthEnd d0))) = true :=
    dateLe_of_monthIdx_lt _ _ hb3 (by omega)
  refine ⟨?_, by omega⟩
  unfold find_valid_date_for_group
  rw [hDL, hrs]
  change some (findGo ux tmpl ⟨d0.year - 2, d0.month, d0.day⟩ fuel d0 0) = _
  rw [findGo_step ux tmpl _ fuel d0 0 (by omega) hle0 hm0,
      findGo_step ux tmpl _ (fuel - 1) (prevMonthEnd d0) 1 (by omega) hle1 hm1,
      findGo_step ux tmpl _ (fuel - 1 - 1) (prevMonthEnd (prevMonthEnd d0)) 2 (by omega) hle2 hm2,
      findGo_found ux tmpl _ (fuel - 1 - 1 - 1) (prevMonthEnd (prevMonthEnd (prevMonthEnd d0))) 3
        (by omega) hle3 hm3]

/-- Witness for C8 at concrete inputs: starting 2025-02-23 with the
General group existing only at 2024-11, the resolver walks 2025-02,
2025-01, 2024-12 and returns 2024-11 after exactly 3 one-month steps. -/
theorem c8_three_backward_steps_witness :
    find_valid_date_for_group ux8 (.iter genUrl) exampleStart 4
      = some (some (formatYM (prevMonthEnd (prevMonthEnd (prevMonthEnd exampleStart)))), 3)
    ∧ monthIdx (prevMonthEnd (prevMonthEnd (prevMonthEnd exampleStart))) + 3 = monthIdx exampleStart :=
  c8_three_backward_steps ux8 (.iter genUrl) exampleStart 4 (by decide) (by decide) (by decide)
    (by decide) (by decide) (by decide) (by decide)

/-- Claim C1, amended: whenever the run produces an output artifact, its
name is derived from `current_date` — the date the run was started — and
not from the publication months the Date Resolver resolved: the name is
always `aip_uruguay_compiled_<YYYY-MM of the start date>.pdf`, whatever
the oracles and however the groups resolved. -/
theorem c1_output_named_from_start_date (net : String → Nat → HttpOutcome)
    (fetch : String → Nat → FetchOutcome) (current : Date) (fm fi : Nat)
    (files : List String) (name : String)
    (h : run net fetch current fm fi = some (files, some name)) :
    name = output_pdf current := by
  unfold run at h
  cases hc : collectAllFiles net fetch current fm fi with
  | none => rw [hc] at h; simp at h
  | some fs =>
    rw [hc] at h
    simp only [Option.map_some', Option.some.injEq, Prod.mk.injEq] at h
    rcases h with ⟨h1, h2⟩
    by_cases he : fs.isEmpty
    · rw [if_pos he] at h2
      cases h2
    · rw [if_neg he] at h2
      injection h2 with h3
      exact h3.symm

/-- Counterexample to C1 as stated: a run started on 2025-02-23 in which
every group — Heading, the four iterable groups, and Amendment — is
resolved by the Date Resolver to publication month 2025-01 (one backward
step each) still names its combined output artifact with `2025-02`, the
start month, not the resolved publication month `2025-01`. -/
theorem c1_output_name_counterexample :
    run exampleNet exampleFetch exampleStart 5 10
      = some (["aip_uruguay_pdfs/Heading.pdf", "aip_uruguay_pdfs/General_0.pdf",
               "aip_uruguay_pdfs/EnRoute_0.pdf", "aip_uruguay_pdfs/Aerodromes_0.pdf",
               "aip_uruguay_pdfs/Additional_Aerodromes_0.pdf",
               "aip_uruguay_pdfs/Amendment.pdf"],
              some "aip_uruguay_compiled_2025-02.pdf")
    ∧ find_valid_date_for_group (uxOf exampleNet) (.fixedT headingUrl) exampleStart 5
        = some (some "2025-01", 1)
    ∧ find_valid_date_for_group (uxOf exampleNet) (.iter genUrl) exampleStart 5
        = some (some "2025-01", 1)
    ∧ find_valid_date_for_group (uxOf exampleNet) (.iter enrUrl) exampleStart 5
        = some (some "2025-01", 1)
    ∧ find_valid_date_for_group (uxOf exampleNet) (.iter adUrl) exampleStart 5
        = some (some "2025-01", 1)
    ∧ find_valid_date_for_group (uxOf exampleNet) (.iter ad2Url) exampleStart 5
        = some (some "2025-01", 1)
    ∧ find_valid_date_for_group (uxOf exampleNet) (.fixedT amdtUrl) exampleStart 5
        = some (some "2025-01", 1)
    ∧ ("aip_uruguay_compiled_2025-02.pdf" : String) ≠ "aip_uruguay_compiled_2025-01.pdf" :=
  ⟨rfl, rfl, rfl, rfl, rfl, rfl, rfl, by decide⟩

/-- Witness for the amended C1 at the same concrete run: the produced
name equals the one derived from the start date. -/
theorem c1_output_named_from_start_date_witness :
    ("aip_uruguay_compiled_2025-02.pdf" : String) = output_pdf exampleStart :=
  c1_output_named_from_start_date exampleNet exampleFetch exampleStart 5 10
    ["aip_uruguay_pdfs/Heading.pdf", "aip_uruguay_pdfs/General_0.pdf",
     "aip_uruguay_pdfs/EnRoute_0.pdf", "aip_uruguay_pdfs/Aerodromes_0.pdf",
     "aip_uruguay_pdfs/Additional_Aerodromes_0.pdf", "aip_uruguay_pdfs/Amendment.pdf"]
    "aip_uruguay_compiled_2025-02.pdf" (by rfl)
